import Mathlib

/-!
Verification development for the Kubernify repository.

Python strings are modelled as lists of characters (`Str`), and every
Python string primitive the code uses (`str.strip`, `str.split`,
`str.rsplit(sep, 1)`, substring membership `in`, `list.index`) is given an
executable structural definition with matching semantics, so that all
theorems can be settled by induction and concrete inputs can be evaluated
by `decide` / `rfl`.

The modules mirror the repository layout:
 - image parser        (`src/kubernify/image_parser.py`)
 - component mapper    (`construct_component_map` in `src/kubernify/cli.py`)
 - version verifier    (`_verify_component_entry` in `src/kubernify/cli.py`)
 - stability auditor   (`src/kubernify/stability_audit.py`)
-/

namespace Kubernify

/-- Python strings, modelled as lists of characters. -/
abbrev Str := List Char

/-- Characters removed by Python `str.strip()` (the ASCII whitespace set:
space, tab, newline, carriage return, vertical tab, form feed). -/
def pyIsSpace (c : Char) : Bool :=
  c = ' ' || c = '\t' || c = '\n' || c = '\r' || c = '\x0b' || c = '\x0c'

/-- Python `str.lstrip()`. -/
def pyLStrip (s : Str) : Str := s.dropWhile pyIsSpace

/-- Python `str.rstrip()`. -/
def pyRStrip (s : Str) : Str := ((s.reverse).dropWhile pyIsSpace).reverse

/-- Python `str.strip()`. -/
def pyStrip (s : Str) : Str := pyRStrip (pyLStrip s)

/-- Python `s.split(sep)` for a single-character separator: always returns at
least one part; adjacent separators produce empty parts. -/
def pySplit (sep : Char) : Str → List Str
  | [] => [[]]
  | c :: rest =>
      match pySplit sep rest with
      | [] => [[c]]
      | h :: t => if c = sep then [] :: h :: t else (c :: h) :: t

/-- Python `s.rsplit(sep, 1)` for a string that contains `sep`: the pair of
everything before the last separator and everything after it. -/
def pyRSplitOnce (sep : Char) (s : Str) : Str × Str :=
  let parts := pySplit sep s
  (List.intercalate [sep] parts.dropLast, parts.getLastD [])

/-- Python `list.index(a)` returning the index of the first occurrence,
`none` when absent (the `ValueError` case). -/
def pyIndex (a : Str) : List Str → Option Nat
  | [] => none
  | x :: xs => if x = a then some 0 else (pyIndex a xs).map (· + 1)

/-- Python `needle == hay[:len(needle)]`: `needle` begins `hay`. -/
def leadsList (needle hay : Str) : Bool :=
  match needle, hay with
  | [], _ => true
  | _ :: _, [] => false
  | a :: as, b :: bs => a == b && leadsList as bs

/-- Python substring membership `needle in hay`. -/
def substrIn (needle : Str) : Str → Bool
  | [] => needle.isEmpty
  | c :: t => leadsList needle (c :: t) || substrIn needle t

/-! ## Image parser (`src/kubernify/image_parser.py`) -/

/-- Python `ImageReference` from `models.py`.  `version` is typed `str | None` in the
dataclass but `parse_image_reference` always supplies a tag, so it is a plain
`Str` here. -/
structure ImageReference where
  component : Str
  full_image : Str
  version : Str
  sub_image : Option Str := none
  registry : Option Str := none
  deriving DecidableEq, Repr

/-- Python `_DOCKER_HUB_HOSTS` from `image_parser.py`. -/
def DOCKER_HUB_HOSTS : List Str :=
  ["docker.io".data, "index.docker.io".data, "registry-1.docker.io".data]

/-- Python `_DOCKER_HUB_CANONICAL` from `image_parser.py`. -/
def DOCKER_HUB_CANONICAL : Str := "docker.io".data

/-- Python `_has_registry_host`: the first path segment looks like a host. -/
def has_registry_host (s : Str) : Bool := s.contains '.' || s.contains ':'

/-- Python `_normalize_docker_hub`: canonicalise Docker Hub host aliases and add the
implicit `library/` namespace for single-segment Docker Hub paths. -/
def normalize_docker_hub (registry : Option Str) (path_segments : List Str) :
    Option Str × List Str :=
  let registry : Option Str :=
    match registry with
    | some r => if DOCKER_HUB_HOSTS.contains r then some DOCKER_HUB_CANONICAL else some r
    | none => none
  let is_docker_hub : Bool := registry.isNone || registry == some DOCKER_HUB_CANONICAL
  let path_segments :=
    if is_docker_hub && path_segments.length == 1 then
      "library".data :: path_segments
    else path_segments
  (registry, path_segments)

/-- Step 1 of `parse_image_reference` after validation: the stripped input
with any `@`-suffix removed (truncate at the first `@`). -/
def workingOf (image : Str) : Str :=
  let image := pyStrip image
  if image.contains '@' then image.takeWhile (fun c => !(c = '@')) else image

/-- Step 2 of `parse_image_reference`: split the working string on `/`, pull
the tag out of the last segment (rightmost `:`), defaulting to `latest`.
Returns the segments (with the last one replaced by its name part) and the
version. -/
def tagSplit (working : Str) : List Str × Str :=
  let segments := pySplit '/' working
  let last_segment := segments.getLastD []
  if last_segment.contains ':' then
    let (name_part, version) := pyRSplitOnce ':' last_segment
    (segments.dropLast ++ [name_part], version)
  else
    (segments, "latest".data)

/-- Step 3 of `parse_image_reference`: strip a leading registry host. -/
def registrySplit (segments : List Str) : Option Str × List Str :=
  if segments.length > 1 && has_registry_host (segments.headD []) then
    (some (segments.headD []), segments.tail)
  else
    (none, segments)

/-- The tag extracted by steps 1–2 of `parse_image_reference`. -/
def imageVersion (image : Str) : Str := (tagSplit (workingOf image)).2

/-- The registry produced by steps 1–4 of `parse_image_reference`. -/
def imageRegistry (image : Str) : Option Str :=
  (normalize_docker_hub (registrySplit (tagSplit (workingOf image)).1).1
    (registrySplit (tagSplit (workingOf image)).1).2).1

/-- The path segments produced by steps 1–4 of `parse_image_reference`. -/
def normalizedPathSegments (image : Str) : List Str :=
  (normalize_docker_hub (registrySplit (tagSplit (workingOf image)).1).1
    (registrySplit (tagSplit (workingOf image)).1).2).2

/-- Step 5 of `parse_image_reference`: anchor resolution. -/
def anchorResolve (repository_anchor : Str) (path_segments : List Str)
    (version : Str) (registry : Option Str) (full : Str) : ImageReference :=
  match pyIndex repository_anchor path_segments with
  | some anchor_index =>
      match path_segments.drop (anchor_index + 1) with
      | [] =>
          { component := repository_anchor, version := version,
            sub_image := none, full_image := full, registry := registry }
      | c :: rest =>
          { component := c, version := version,
            sub_image := if rest.isEmpty then none else some (List.intercalate ['/'] rest),
            full_image := full, registry := registry }
  | none =>
      { component := path_segments.getLastD [], version := version,
        sub_image := none, full_image := full, registry := registry }

/-- Python `parse_image_reference` from `image_parser.py`.  `none` models the
`ValueError` raised on empty / whitespace-only input; the straight-line
locals of the Python body are factored into the named stages above (each
stage recomputes its prefix of the pipeline). -/
def parse_image_reference (image repository_anchor : Str) : Option ImageReference :=
  if pyStrip image = [] then none
  else
    some (anchorResolve repository_anchor (normalizedPathSegments image)
      (imageVersion image) (imageRegistry image) (pyStrip image))


/-! ## Data model (`src/kubernify/models.py`), restricted to the fields the
code reads.  Kubernetes client containers are represented by their image
string, the only field the repository accesses on them. -/

/-- Python `WorkloadType` enum values (the dataclasses carry them as strings). -/
def DEPLOYMENT : Str := "Deployment".data
def STATEFUL_SET : Str := "StatefulSet".data
def DAEMON_SET : Str := "DaemonSet".data
def JOB : Str := "Job".data
def CRON_JOB : Str := "CronJob".data

/-- Python `ContainerType` enum from `models.py`. -/
inductive ContainerType where
  | init
  | app
  deriving DecidableEq, Repr

/-- A container inside a pod spec; only `image` is ever read. -/
structure ContainerSpec where
  image : Str
  deriving DecidableEq, Repr

/-- Python `V1PodSpec` fields the code reads.  A `None` container list is modelled
as `[]` (the code only iterates `xs or []`). -/
structure PodSpecM where
  node_name : Str
  init_containers : List ContainerSpec := []
  containers : List ContainerSpec := []
  deriving DecidableEq, Repr

/-- A pod condition (`type` / `status` pair). -/
structure PodCondition where
  type : Str
  status : Str
  deriving DecidableEq, Repr

/-- A container status: restart count and the `state.waiting.reason` chain,
collapsed to `none` when `state` or `state.waiting` or the reason is absent. -/
structure ContainerStatus where
  name : Str
  restart_count : Int
  waiting_reason : Option Str := none
  deriving DecidableEq, Repr

/-- Python `V1PodStatus` fields the code reads; timestamps are epoch seconds. -/
structure PodStatus where
  pod_ip : Str
  phase : Str
  start_time : Option Int := none
  conditions : List PodCondition := []
  container_statuses : List ContainerStatus := []
  deriving DecidableEq, Repr

/-- Python `V1ObjectMeta` fields the code reads on pods. -/
structure PodMeta where
  name : Str
  labels : List (Str × Str) := []
  deletion_timestamp : Option Int := none
  deriving DecidableEq, Repr

/-- A raw Kubernetes pod object as the code consumes it. -/
structure V1Pod where
  metadata : PodMeta
  spec : PodSpecM
  status : PodStatus
  deriving DecidableEq, Repr

/-- Python `PodInfo` from `models.py`.  The Python stores `str(pod.status.start_time)`;
the stringification is inert (the field is never inspected), so the raw
timestamp is carried instead. -/
structure PodInfo where
  name : Str
  ip : Str
  node : Str
  start_time : Option Int
  phase : Str
  deriving DecidableEq, Repr

/-- Python `RevisionInfo` from `models.py`. -/
structure RevisionInfo where
  hash : Str := []
  current_hash : Str := []
  partition : Int := 0
  strategy : Str := "RollingUpdate".data
  number : Option Int := none
  deriving DecidableEq, Repr

/-- Python `WorkloadInspectionResult` from `models.py` (`namespace` is a Lean
keyword, hence the trailing underscore). -/
structure WorkloadInspectionResult where
  name : Str
  type : Str
  namespace_ : Str
  latest_revision : Option RevisionInfo := none
  pods : List V1Pod := []
  pod_spec : Option PodSpecM := none
  error : Option Str := none
  deriving DecidableEq, Repr

/-- Python `ComponentMapEntry` from `models.py`. -/
structure ComponentMapEntry where
  workload_name : Str
  workload_type : Str
  container_name : Str
  container_type : ContainerType
  actual_version : Str
  pods : List PodInfo := []
  deriving DecidableEq, Repr

/-! ## Component mapper (`construct_component_map` and helpers, `cli.py`) -/

/-- Python `_containers_from_spec`: init containers first, then app containers. -/
def containers_from_spec (init_containers app_containers : List ContainerSpec)
    (pod_info : Option PodInfo) : List (Str × ContainerType × Option PodInfo) :=
  init_containers.map (fun c => (c.image, ContainerType.init, pod_info)) ++
    app_containers.map (fun c => (c.image, ContainerType.app, pod_info))

/-- The `PodInfo` built for each running pod in `_extract_containers`. -/
def podInfoOf (pod : V1Pod) : PodInfo :=
  { name := pod.metadata.name, ip := pod.status.pod_ip, node := pod.spec.node_name,
    start_time := pod.status.start_time, phase := pod.status.phase }

/-- Python `_extract_containers`: containers of the running pods when any exist,
otherwise the pod-spec template, otherwise nothing. -/
def extract_containers (workload : WorkloadInspectionResult) :
    List (Str × ContainerType × Option PodInfo) :=
  match workload.pods with
  | [] =>
      match workload.pod_spec with
      | some pod_spec => containers_from_spec pod_spec.init_containers pod_spec.containers none
      | none => []
  | pods =>
      (pods.map (fun pod =>
        containers_from_spec pod.spec.init_containers pod.spec.containers
          (some (podInfoOf pod)))).flatten

/-- The grouping key of a component-map entry. -/
def entryKey (e : ComponentMapEntry) : Str × Str × Str × Str :=
  (e.workload_name, e.workload_type, e.container_name, e.actual_version)

/-- Python `_build_or_update_entry`: append the pod info to the first entry with the
same `(workload_name, workload_type, component, version)` key, or append a
fresh entry at the end of the bucket. -/
def build_or_update_entry (entries : List ComponentMapEntry)
    (workload_name workload_type : Str) (parsed : ImageReference)
    (container_type : ContainerType) (pod_info : Option PodInfo) :
    List ComponentMapEntry :=
  match entries with
  | [] =>
      [{ workload_name := workload_name, workload_type := workload_type,
         container_name := parsed.component, container_type := container_type,
         actual_version := parsed.version,
         pods := match pod_info with | some p => [p] | none => [] }]
  | e :: rest =>
      if e.workload_name = workload_name ∧ e.workload_type = workload_type ∧
          e.container_name = parsed.component ∧ e.actual_version = parsed.version then
        { e with pods := e.pods ++ (match pod_info with | some p => [p] | none => []) } :: rest
      else
        e :: build_or_update_entry rest workload_name workload_type parsed container_type pod_info

/-- Python `_should_skip`: the first skip pattern that is a substring of either the
container name or the workload name. -/
def should_skip (skip_patterns : List Str) (container_name workload_name : Str) :
    Option Str :=
  skip_patterns.find? (fun pattern =>
    substrIn pattern container_name || substrIn pattern workload_name)

/-- Python `key in dict` for a manifest modelled as an association list. -/
def manifestHasKey (manifest : List (Str × Str)) (k : Str) : Bool :=
  (manifest.lookup k).isSome

/-- The component map: `defaultdict(list)` modelled as a total function with
default `[]`. -/
abbrev ComponentMap := Str → List ComponentMapEntry

/-- The body of the container loop of `construct_component_map` for one
`(image, container_type, pod_info)` triple. -/
def processContainer (manifest : List (Str × Str)) (repository_anchor : Str)
    (skip_patterns : List Str) (workload_name workload_type : Str)
    (m : ComponentMap) (triple : Str × ContainerType × Option PodInfo) :
    ComponentMap :=
  match parse_image_reference triple.1 repository_anchor with
  | none => m
  | some parsed =>
      if !(manifestHasKey manifest parsed.component) then m
      else if (should_skip skip_patterns parsed.component workload_name).isSome then m
      else
        Function.update m parsed.component
          (build_or_update_entry (m parsed.component) workload_name workload_type
            parsed triple.2.1 triple.2.2)

/-- Python `construct_component_map` from `cli.py` (as shipped: no alias support). -/
def construct_component_map (workloads : List WorkloadInspectionResult)
    (manifest : List (Str × Str)) (repository_anchor : Str)
    (skip_containers : List Str) : ComponentMap :=
  workloads.foldl (fun m workload =>
    (extract_containers workload).foldl
      (processContainer manifest repository_anchor skip_containers
        workload.name workload.type) m)
    (fun _ => [])

/-- Modelled from the spec: the alias-aware container-loop body of
`construct_component_map`.  The repository's tests call
`construct_component_map` with a `reverse_aliases` argument and import
`build_reverse_alias_map` / `load_component_aliases`, but that code is absent
from the shipped `cli.py`; spec §4.D:
`mapped_component = reverse_aliases.get(parsed.component, parsed.component)`,
skip if `mapped_component` is not a manifest key, skip on skip-pattern match
against `parsed.component` or the workload name, then group under
`mapped_component` by `(workload_name, workload_kind, parsed.component,
parsed.version)`. -/
def processContainerAliased (manifest : List (Str × Str)) (repository_anchor : Str)
    (skip_patterns : List Str) (reverse_aliases : List (Str × Str))
    (workload_name workload_type : Str)
    (m : ComponentMap) (triple : Str × ContainerType × Option PodInfo) :
    ComponentMap :=
  match parse_image_reference triple.1 repository_anchor with
  | none => m
  | some parsed =>
      let mapped_component := (reverse_aliases.lookup parsed.component).getD parsed.component
      if !(manifestHasKey manifest mapped_component) then m
      else if (should_skip skip_patterns parsed.component workload_name).isSome then m
      else
        Function.update m mapped_component
          (build_or_update_entry (m mapped_component) workload_name workload_type
            parsed triple.2.1 triple.2.2)

/-- Modelled from the spec: alias-aware `construct_component_map`
(spec §4.D), i.e. the shipped function with the container-loop body replaced
by `processContainerAliased`. -/
def construct_component_map_aliased (workloads : List WorkloadInspectionResult)
    (manifest : List (Str × Str)) (repository_anchor : Str)
    (skip_containers : List Str) (reverse_aliases : List (Str × Str)) : ComponentMap :=
  workloads.foldl (fun m workload =>
    (extract_containers workload).foldl
      (processContainerAliased manifest repository_anchor skip_containers
        reverse_aliases workload.name workload.type) m)
    (fun _ => [])

/-! ## Version verifier (`_verify_component_entry`, `cli.py`) -/

/-- Python `VerificationStatus` enum from `models.py`. -/
inductive VerificationStatus where
  | pass
  | fail
  | timeout
  | skipped
  deriving DecidableEq, Repr

/-- Python `VerificationResult` dataclass from `models.py`. -/
structure VerificationResult where
  workload : Str
  type : Str
  container : Str
  status : VerificationStatus
  error : Option Str := none
  deriving DecidableEq, Repr

/-- Python `_verify_component_entry` from `cli.py`. -/
def verify_component_entry (entry : ComponentMapEntry) (expected_version : Str)
    (allow_zero_replicas : Bool) : VerificationResult :=
  if entry.pods.isEmpty && !allow_zero_replicas then
    { workload := entry.workload_name, type := entry.workload_type,
      container := entry.container_name, status := VerificationStatus.fail,
      error := some ("Workload has 0 running pods (version from pod spec: ".data ++
        entry.actual_version ++ ")".data) }
  else if !(entry.actual_version == expected_version) then
    { workload := entry.workload_name, type := entry.workload_type,
      container := entry.container_name, status := VerificationStatus.fail,
      error := some ("Version mismatch: expected ".data ++ expected_version ++
        ", found ".data ++ entry.actual_version) }
  else
    { workload := entry.workload_name, type := entry.workload_type,
      container := entry.container_name, status := VerificationStatus.pass }

/-! ## Stability auditor (`src/kubernify/stability_audit.py`)

The audited Kubernetes object (fetched by `_get_workload_object`) and the
wall clock are passed in explicitly.  Functions that can raise a Python
exception return `Option`, with `none` for the exception. -/

/-- Python `metadata` of a fetched workload object: the `generation` attribute is
always present on the client classes, possibly `None`. -/
structure WorkloadMeta where
  generation : Option Int := none
  deriving DecidableEq, Repr

/-- Python `status` of a fetched workload object, restricted to the attributes the
auditor reads (each kind's status class carries the relevant subset). -/
structure WorkloadStatus where
  observed_generation : Option Int := none
  desired_number_scheduled : Option Int := none
  number_available : Option Int := none
  updated_number_scheduled : Option Int := none
  succeeded : Option Int := none
  failed : Option Int := none
  deriving DecidableEq, Repr

/-- Python `spec` of a fetched workload object; only `backoff_limit` is read. -/
structure WorkloadSpec where
  backoff_limit : Option Int := none
  deriving DecidableEq, Repr

/-- A fetched Kubernetes workload object (`KubernetesWorkload` in
`models.py`): `metadata` / `status` / `spec` may each be `None`. -/
structure KubernetesWorkload where
  metadata : Option WorkloadMeta := none
  status : Option WorkloadStatus := none
  spec : Option WorkloadSpec := none
  deriving DecidableEq, Repr

/-- Python `StabilityAuditResult` from `models.py` (all booleans default `False`). -/
structure StabilityAuditResult where
  converged : Bool := false
  revision_consistent : Bool := false
  pods_healthy : Bool := false
  scheduling_complete : Bool := false
  job_complete : Bool := false
  errors : List Str := []
  deriving DecidableEq, Repr

/-- Python `str(i)` for the integers interpolated into audit error messages. -/
def intStr (i : Int) : Str := (toString i).data

/-- Python `StabilityAuditor.check_controller_convergence`.  The `hasattr` guards
return `True` when `metadata` is `None` (then `None` has no `generation`
attribute) and `False` when `status` or `observed_generation` is absent;
`none` models the `TypeError` raised by `observed_generation >= None` when
`generation` is `None` while `observed_generation` is a number. -/
def check_controller_convergence (workload : KubernetesWorkload) : Option Bool :=
  match workload.metadata with
  | none => some true
  | some md =>
      match workload.status with
      | none => some false
      | some st =>
          match st.observed_generation with
          | none => some false
          | some og =>
              match md.generation with
              | none => none
              | some g => some (decide (og ≥ g))

/-- Python `StabilityAuditor.check_revision_consistency`. -/
def check_revision_consistency (pods : List V1Pod) (expected_revision_hash : Str)
    (workload_type : Str) : List Str :=
  if expected_revision_hash.isEmpty then
    ["Expected revision hash is missing".data]
  else
    (pods.map (fun pod =>
      let labels := pod.metadata.labels
      let actual_hash : Option Str :=
        if workload_type == DEPLOYMENT then labels.lookup "pod-template-hash".data
        else if workload_type == STATEFUL_SET || workload_type == DAEMON_SET then
          labels.lookup "controller-revision-hash".data
        else none
      if (workload_type == DEPLOYMENT || workload_type == STATEFUL_SET ||
            workload_type == DAEMON_SET) &&
          !(actual_hash == some expected_revision_hash) then
        ["Pod ".data ++ pod.metadata.name ++ " has hash ".data ++
          (match actual_hash with | some h => h | none => "None".data) ++
          ", expected ".data ++ expected_revision_hash]
      else [])).flatten

/-- The waiting reasons flagged by `check_pod_health`. -/
def BAD_WAITING_REASONS : List Str :=
  ["ImagePullBackOff".data, "ErrImagePull".data, "CrashLoopBackOff".data]

/-- Python `StabilityAuditor.check_pod_health`; `now` is the wall clock
(`datetime.now(timezone.utc)`) in epoch seconds.  The uptime message embeds
the uptime as an integer where Python formats a float. -/
def check_pod_health (pod : V1Pod) (restart_threshold : Int) (min_uptime_sec : Int)
    (now : Int) : List Str :=
  let pod_name := pod.metadata.name
  if pod.metadata.deletion_timestamp.isSome then
    ["Pod ".data ++ pod_name ++ " is terminating".data]
  else
    let ready_errors :=
      match pod.status.conditions.find? (fun c => c.type == "Ready".data) with
      | none => ["Pod ".data ++ pod_name ++ " is not Ready".data]
      | some ready_cond =>
          if !(ready_cond.status == "True".data) then
            ["Pod ".data ++ pod_name ++ " is not Ready".data]
          else []
    let container_errors :=
      (pod.status.container_statuses.map (fun st =>
        (if st.restart_count ≥ restart_threshold then
          ["Container ".data ++ st.name ++ " in pod ".data ++ pod_name ++
            " has ".data ++ intStr st.restart_count ++ " restarts".data]
        else []) ++
        (match st.waiting_reason with
         | some reason =>
             if BAD_WAITING_REASONS.contains reason then
               ["Container ".data ++ st.name ++ " in pod ".data ++ pod_name ++
                 " is in ".data ++ reason]
             else []
         | none => []))).flatten
    let uptime_errors :=
      if min_uptime_sec > 0 then
        match pod.status.start_time with
        | some start_time =>
            let uptime := now - start_time
            if uptime < min_uptime_sec then
              ["Pod ".data ++ pod_name ++ " uptime ".data ++ intStr uptime ++
                "s < ".data ++ intStr min_uptime_sec ++ "s".data]
            else []
        | none => ["Pod ".data ++ pod_name ++ " has not started yet".data]
      else []
    ready_errors ++ container_errors ++ uptime_errors

/-- Python `StabilityAuditor.verify_daemon_set_scheduling`. -/
def verify_daemon_set_scheduling (daemon_set : KubernetesWorkload) : List Str :=
  match daemon_set.status with
  | none => ["DaemonSet status is missing".data]
  | some status =>
      let desired := status.desired_number_scheduled.getD 0
      let available := status.number_available.getD 0
      let updated := status.updated_number_scheduled.getD 0
      (if available < desired then
        ["DaemonSet available pods ".data ++ intStr available ++ " < desired ".data ++
          intStr desired]
      else []) ++
      (if updated < desired then
        ["DaemonSet updated pods ".data ++ intStr updated ++ " < desired ".data ++
          intStr desired]
      else [])

/-- Python `StabilityAuditor.verify_job_status`. -/
def verify_job_status (job : KubernetesWorkload) : List Str :=
  match job.status with
  | none => ["Job status is missing".data]
  | some status =>
      let failed := status.failed.getD 0
      let backoff_limit :=
        match job.spec with
        | some sp => sp.backoff_limit.getD 6
        | none => 6
      (if status.succeeded.getD 0 < 1 then ["Job has not succeeded yet".data] else []) ++
      (if failed > backoff_limit then
        ["Job failed count ".data ++ intStr failed ++ " > backoffLimit ".data ++
          intStr backoff_limit]
      else [])

/-- The `w_type in [DEPLOYMENT, STATEFUL_SET, DAEMON_SET]` test used by the
convergence and revision steps of `audit_workload`. -/
def is_controller_type (w_type : Str) : Bool :=
  w_type == DEPLOYMENT || w_type == STATEFUL_SET || w_type == DAEMON_SET

/-- Step 1 of `audit_workload`: `result.converged` (Jobs/CronJobs auto-true);
`none` is the propagated `TypeError` of `check_controller_convergence`. -/
def converged_of (w_type : Str) (workload_obj : KubernetesWorkload) : Option Bool :=
  if is_controller_type w_type then check_controller_convergence workload_obj
  else some true

/-- Step 1 of `audit_workload`: the error appended when not converged. -/
def convergence_errors_of (w_type : Str) (converged : Bool) : List Str :=
  if is_controller_type w_type && !converged then
    ["Workload not converged (observedGeneration < generation)".data]
  else []

/-- Step 2 of `audit_workload`: `(result.revision_consistent, its errors)`. -/
def revision_of (workload_info : WorkloadInspectionResult) : Bool × List Str :=
  if is_controller_type workload_info.type then
    match workload_info.latest_revision with
    | some rev =>
        if !rev.hash.isEmpty then
          let rev_errors :=
            check_revision_consistency workload_info.pods rev.hash workload_info.type
          (rev_errors.isEmpty, rev_errors)
        else (false, ["Could not determine latest revision hash".data])
    | none => (false, ["Could not determine latest revision hash".data])
  else (true, [])

/-- Step 3 of `audit_workload`: the accumulated pod health errors. -/
def pod_errors_of (workload_info : WorkloadInspectionResult)
    (restart_threshold min_uptime_sec now : Int) : List Str :=
  (workload_info.pods.map (fun pod =>
    check_pod_health pod restart_threshold min_uptime_sec now)).flatten

/-- Step 4 of `audit_workload`: `(result.scheduling_complete, its errors)`. -/
def scheduling_of (w_type : Str) (workload_obj : KubernetesWorkload) : Bool × List Str :=
  if w_type == DAEMON_SET then
    let ds_errors := verify_daemon_set_scheduling workload_obj
    (ds_errors.isEmpty, ds_errors)
  else (true, [])

/-- Step 5 of `audit_workload`: `(result.job_complete, its errors)`. -/
def job_of (w_type : Str) (workload_obj : KubernetesWorkload) : Bool × List Str :=
  if w_type == JOB then
    let job_errors := verify_job_status workload_obj
    (job_errors.isEmpty, job_errors)
  else (true, [])

/-- Python `StabilityAuditor.audit_workload`.  `fetched` is the result of
`_get_workload_object` (`none` when the read failed) and `now` the wall
clock; `none` models the `TypeError` that `check_controller_convergence`
can raise.  The sequential mutation of `result` in the Python body is
factored into the named per-check steps above. -/
def audit_workload (workload_info : WorkloadInspectionResult)
    (restart_threshold : Int) (min_uptime_sec : Int)
    (fetched : Option KubernetesWorkload) (now : Int) :
    Option StabilityAuditResult :=
  if workload_info.name.isEmpty || workload_info.namespace_.isEmpty ||
      workload_info.type.isEmpty then
    some { errors := ["Invalid workload info provided".data] }
  else
    match fetched with
    | none => some { errors := ["Could not fetch workload object ".data ++ workload_info.name] }
    | some workload_obj =>
        match converged_of workload_info.type workload_obj with
        | none => none
        | some converged =>
            some { converged := converged,
                   revision_consistent := (revision_of workload_info).1,
                   pods_healthy :=
                     (pod_errors_of workload_info restart_threshold min_uptime_sec now).isEmpty,
                   scheduling_complete := (scheduling_of workload_info.type workload_obj).1,
                   job_complete := (job_of workload_info.type workload_obj).1,
                   errors := convergence_errors_of workload_info.type converged ++
                     (revision_of workload_info).2 ++
                     pod_errors_of workload_info restart_threshold min_uptime_sec now ++
                     (scheduling_of workload_info.type workload_obj).2 ++
                     (job_of workload_info.type workload_obj).2 }

/-! ## Helper lemmas -/

theorem pyLStrip_eq_nil_iff (s : Str) : pyLStrip s = [] ↔ ∀ c ∈ s, pyIsSpace c := by
  simp [pyLStrip, List.dropWhile_eq_nil_iff]

theorem pyRStrip_eq_nil_iff (s : Str) : pyRStrip s = [] ↔ ∀ c ∈ s, pyIsSpace c := by
  simp [pyRStrip, List.dropWhile_eq_nil_iff]

theorem pyStrip_eq_nil_iff (s : Str) : pyStrip s = [] ↔ ∀ c ∈ s, pyIsSpace c := by
  rw [pyStrip, pyRStrip_eq_nil_iff]
  constructor
  · intro h c hc
    rcases List.mem_append.1 ((List.takeWhile_append_dropWhile (p := pyIsSpace) (l := s)) ▸ hc) with
      h' | h'
    · exact List.mem_takeWhile_imp h'
    · exact h c h'
  · intro h c hc
    exact h c (List.dropWhile_sublist (p := pyIsSpace) (l := s) |>.mem hc)

theorem substrIn_nil_left (t : Str) : substrIn [] t = true := by
  induction t with
  | nil => simp [substrIn, List.isEmpty]
  | cons c t ih => simp [substrIn, leadsList]

theorem leadsList_self_append (n post : Str) : leadsList n (n ++ post) = true := by
  induction n with
  | nil => simp [leadsList]
  | cons c n ih => simp [leadsList, ih]

theorem substrIn_cons_of (n : Str) (c : Char) (t : Str) (h : substrIn n t = true) :
    substrIn n (c :: t) = true := by
  simp [substrIn, h]

theorem substrIn_sandwich (pre n post : Str) : substrIn n (pre ++ (n ++ post)) = true := by
  induction pre with
  | nil =>
      match n with
      | [] => simpa using substrIn_nil_left post
      | c :: n' =>
          have h := leadsList_self_append (c :: n') post
          simp only [List.cons_append] at h
          simp [substrIn, h]
  | cons c pre ih => exact substrIn_cons_of _ _ _ ih

/-! ## C4 — parse failure exactly on blank input -/

/-- C4: `parse_image_reference` fails (raises `ValueError`, modelled as
`none`) if and only if the image string is empty or consists only of
whitespace; every other input parses successfully for every anchor. -/
theorem parse_image_reference_none_iff_blank (image repository_anchor : Str) :
    parse_image_reference image repository_anchor = none ↔
      image.all pyIsSpace = true := by
  rw [List.all_eq_true, ← pyStrip_eq_nil_iff]
  by_cases h : pyStrip image = [] <;> simp [parse_image_reference, h]

/-- C4 witness: a whitespace-only image is rejected, a plain image is not. -/
theorem parse_image_reference_none_iff_blank_witness :
    parse_image_reference " \t ".data "my-app".data = none ∧
      ¬parse_image_reference "redis".data "my-app".data = none := by
  constructor
  · exact (parse_image_reference_none_iff_blank _ _).mpr (by decide)
  · intro h
    have := (parse_image_reference_none_iff_blank "redis".data "my-app".data).mp h
    exact absurd this (by decide)

/-! ## C10 — totality of `check_controller_convergence` -/

/-- C10 counterexample: on a workload whose `metadata.generation` is `None`
while `status.observed_generation` is a number, the final comparison
`observed_generation >= generation` raises a `TypeError` (modelled as
`none`), so the function is not total. -/
theorem check_controller_convergence_raises :
    check_controller_convergence
      { metadata := some { generation := none },
        status := some { observed_generation := some 5 },
        spec := none } = none := rfl

/-- C10 (amended): `check_controller_convergence` returns a boolean for every
workload object except exactly when `metadata` is present with
`generation = None` while `status` is present with a numeric
`observed_generation`; in that case the comparison raises `TypeError`. -/
theorem check_controller_convergence_none_iff (w : KubernetesWorkload) :
    check_controller_convergence w = none ↔
      ∃ md st og, w.metadata = some md ∧ w.status = some st ∧
        st.observed_generation = some og ∧ md.generation = none := by
  rcases w with ⟨md?, st?, sp?⟩
  cases md? with
  | none => simp [check_controller_convergence]
  | some md =>
      cases st? with
      | none => simp [check_controller_convergence]
      | some st =>
          cases hog : st.observed_generation with
          | none => simp [check_controller_convergence, hog]
          | some og =>
              cases hg : md.generation with
              | none =>
                  simp only [check_controller_convergence, hog, hg]
                  constructor
                  · intro _
                    exact ⟨md, st, og, rfl, rfl, hog, hg⟩
                  · intro _
                    trivial
              | some g =>
                  simp only [check_controller_convergence, hog, hg]
                  constructor
                  · intro h
                    exact absurd h (by simp)
                  · rintro ⟨md', st', og', hm, hs, ho, hgen⟩
                    obtain rfl := Option.some.inj hm
                    rw [hg] at hgen
                    exact absurd hgen (by simp)

/-- C10 witness: a workload with a numeric generation does not raise. -/
theorem check_controller_convergence_none_iff_witness :
    check_controller_convergence
      { metadata := some { generation := some 3 },
        status := some { observed_generation := some 5 },
        spec := none } ≠ none := by
  intro h
  obtain ⟨md, st, og, hm, hs, ho, hg⟩ := (check_controller_convergence_none_iff _).mp h
  obtain rfl := Option.some.inj hm
  exact Option.noConfusion hg

/-! ## C3 — per-entry version verification -/

/-- C3: a component-map entry with no pods fails with the
"0 running pods" error (mentioning the pod-spec version) when zero replicas
are not allowed, regardless of the actual version; otherwise the result is a
FAIL with "expected X, found Y" exactly when the actual version differs from
the expected one, and a PASS when they are equal. -/
theorem verify_component_entry_cases (entry : ComponentMapEntry)
    (expected_version : Str) (allow_zero_replicas : Bool) :
    (entry.pods = [] ∧ allow_zero_replicas = false →
      (verify_component_entry entry expected_version allow_zero_replicas).status =
        VerificationStatus.fail ∧
      (verify_component_entry entry expected_version allow_zero_replicas).error =
        some ("Workload has 0 running pods (version from pod spec: ".data ++
          entry.actual_version ++ ")".data) ∧
      substrIn "0 running pods".data
        ((verify_component_entry entry expected_version allow_zero_replicas).error.getD []) =
        true) ∧
    (¬(entry.pods = [] ∧ allow_zero_replicas = false) →
      (¬entry.actual_version = expected_version →
        (verify_component_entry entry expected_version allow_zero_replicas).status =
          VerificationStatus.fail ∧
        (verify_component_entry entry expected_version allow_zero_replicas).error =
          some ("Version mismatch: expected ".data ++ expected_version ++
            ", found ".data ++ entry.actual_version)) ∧
      (entry.actual_version = expected_version →
        (verify_component_entry entry expected_version allow_zero_replicas).status =
          VerificationStatus.pass ∧
        (verify_component_entry entry expected_version allow_zero_replicas).error = none)) := by
  constructor
  · rintro ⟨hp, ha⟩
    have hcond : (entry.pods.isEmpty && !allow_zero_replicas) = true := by
      simp [hp, ha]
    refine ⟨?_, ?_, ?_⟩
    · simp [verify_component_entry, hcond]
    · simp [verify_component_entry, hcond]
    · simp only [verify_component_entry, hcond, if_true, Option.getD_some]
      have hmsg : ("Workload has 0 running pods (version from pod spec: ".data ++
            entry.actual_version ++ ")".data : Str) =
          "Workload has ".data ++ ("0 running pods".data ++
            (" (version from pod spec: ".data ++ entry.actual_version ++ ")".data)) := by
        simp only [← List.append_assoc]
        rfl
      rw [hmsg]
      exact substrIn_sandwich _ _ _
  · intro h
    have hcond : (entry.pods.isEmpty && !allow_zero_replicas) = false := by
      rcases hpods : entry.pods with _ | ⟨p, ps⟩
      · cases allow_zero_replicas
        · exact absurd ⟨rfl, rfl⟩ (hpods ▸ h)
        · simp
      · simp
    constructor
    · intro hne
      have hv : (entry.actual_version == expected_version) = false := by
        simpa using hne
      constructor
      · simp [verify_component_entry, hcond, hv]
      · simp [verify_component_entry, hcond, hv]
    · intro heq
      have hv : (entry.actual_version == expected_version) = true := by
        simpa using heq
      constructor
      · simp [verify_component_entry, hcond, hv]
      · simp [verify_component_entry, hcond, hv]

/-- C3 witness: the three branches at concrete entries. -/
theorem verify_component_entry_cases_witness :
    ((verify_component_entry
        { workload_name := "w".data, workload_type := "Deployment".data,
          container_name := "backend".data, container_type := ContainerType.app,
          actual_version := "v1".data, pods := [] } "v1".data false).status =
      VerificationStatus.fail) ∧
    ((verify_component_entry
        { workload_name := "w".data, workload_type := "Deployment".data,
          container_name := "backend".data, container_type := ContainerType.app,
          actual_version := "v1".data,
          pods := [{ name := "p".data, ip := "i".data, node := "n".data,
                     start_time := none, phase := "Running".data }] } "v2".data false).status =
      VerificationStatus.fail) ∧
    ((verify_component_entry
        { workload_name := "w".data, workload_type := "Deployment".data,
          container_name := "backend".data, container_type := ContainerType.app,
          actual_version := "v2".data,
          pods := [{ name := "p".data, ip := "i".data, node := "n".data,
                     start_time := none, phase := "Running".data }] } "v2".data false).status =
      VerificationStatus.pass) := by
  refine ⟨?_, ?_, ?_⟩
  · exact ((verify_component_entry_cases _ _ _).1 ⟨rfl, rfl⟩).1
  · exact (((verify_component_entry_cases _ _ _).2 (by simp)).1 (by decide)).1
  · exact (((verify_component_entry_cases _ _ _).2 (by simp)).2 (by decide)).1

/-! ## C2 — stability audit: empty errors iff all five checks pass -/

theorem convergence_errors_of_eq_nil_iff (w_type : Str) (workload_obj : KubernetesWorkload)
    (converged : Bool) (h : converged_of w_type workload_obj = some converged) :
    convergence_errors_of w_type converged = [] ↔ converged = true := by
  by_cases hic : is_controller_type w_type = true
  · cases converged <;> simp [convergence_errors_of, hic]
  · rw [converged_of, if_neg hic] at h
    obtain rfl := Option.some.inj h
    simp [convergence_errors_of]

theorem revision_of_snd_eq_nil_iff (workload_info : WorkloadInspectionResult) :
    (revision_of workload_info).2 = [] ↔ (revision_of workload_info).1 = true := by
  rw [revision_of]
  split
  · split
    · split <;> simp [List.isEmpty_iff]
    · simp
  · simp

theorem scheduling_of_snd_eq_nil_iff (w_type : Str) (workload_obj : KubernetesWorkload) :
    (scheduling_of w_type workload_obj).2 = [] ↔
      (scheduling_of w_type workload_obj).1 = true := by
  rw [scheduling_of]
  split <;> simp [List.isEmpty_iff]

theorem job_of_snd_eq_nil_iff (w_type : Str) (workload_obj : KubernetesWorkload) :
    (job_of w_type workload_obj).2 = [] ↔ (job_of w_type workload_obj).1 = true := by
  rw [job_of]
  split <;> simp [List.isEmpty_iff]

/-- C2: every `StabilityAuditResult` returned by `audit_workload` has an
empty error list if and only if all five check booleans (`converged`,
`revision_consistent`, `pods_healthy`, `scheduling_complete`,
`job_complete`) are true. -/
theorem audit_workload_stable_iff (workload_info : WorkloadInspectionResult)
    (restart_threshold min_uptime_sec : Int) (fetched : Option KubernetesWorkload)
    (now : Int) (r : StabilityAuditResult)
    (h : audit_workload workload_info restart_threshold min_uptime_sec fetched now = some r) :
    r.errors = [] ↔ (r.converged = true ∧ r.revision_consistent = true ∧
      r.pods_healthy = true ∧ r.scheduling_complete = true ∧ r.job_complete = true) := by
  rw [audit_workload.eq_def] at h
  split at h
  · obtain rfl := Option.some.inj h
    simp
  · split at h
    · obtain rfl := Option.some.inj h
      simp
    · rename_i workload_obj
      split at h
      · exact absurd h (by simp)
      · rename_i converged heq
        obtain rfl := Option.some.inj h
        simp only [List.append_eq_nil, List.isEmpty_iff,
          convergence_errors_of_eq_nil_iff workload_info.type workload_obj converged heq,
          revision_of_snd_eq_nil_iff, scheduling_of_snd_eq_nil_iff, job_of_snd_eq_nil_iff,
          and_assoc]

/-- C2 witness: a CronJob workload with no pods audits to all-true booleans
and an empty error list. -/
theorem audit_workload_stable_iff_witness :
    audit_workload
        { name := "cj".data, type := "CronJob".data, namespace_ := "default".data }
        3 0 (some {}) 0 =
      some { converged := true, revision_consistent := true, pods_healthy := true,
             scheduling_complete := true, job_complete := true, errors := [] } ∧
    (([] : List Str) = [] ↔
      ((true : Bool) = true ∧ (true : Bool) = true ∧ (true : Bool) = true ∧
        (true : Bool) = true ∧ (true : Bool) = true)) := by
  refine ⟨by decide, ?_⟩
  have h := audit_workload_stable_iff
    { name := "cj".data, type := "CronJob".data, namespace_ := "default".data }
    3 0 (some {}) 0
    { converged := true, revision_consistent := true, pods_healthy := true,
      scheduling_complete := true, job_complete := true, errors := [] }
    (by decide)
  exact h

/-! ## Parser structure lemmas -/

theorem pySplit_ne_nil (sep : Char) (s : Str) : pySplit sep s ≠ [] := by
  cases s with
  | nil => simp [pySplit]
  | cons c rest =>
      rw [pySplit]
      rcases h : pySplit sep rest with _ | ⟨h', t⟩
      · simp
      · by_cases hc : c = sep <;> simp [hc]

theorem tagSplit_fst_ne_nil (working : Str) : (tagSplit working).1 ≠ [] := by
  rw [tagSplit]
  split
  · simp
  · simpa using pySplit_ne_nil '/' working

theorem registrySplit_snd_ne_nil (segments : List Str) (h : segments ≠ []) :
    (registrySplit segments).2 ≠ [] := by
  rw [registrySplit]
  split
  · rename_i hcond
    rcases segments with _ | ⟨s, t⟩
    · exact absurd rfl h
    · simp only [Bool.and_eq_true, decide_eq_true_eq] at hcond
      rcases t with _ | _
      · simp at hcond
      · simp
  · exact h

theorem normalize_docker_hub_snd_ne_nil (registry : Option Str) (path_segments : List Str)
    (h : path_segments ≠ []) : (normalize_docker_hub registry path_segments).2 ≠ [] := by
  simp only [normalize_docker_hub]
  split <;> simp_all

theorem normalizedPathSegments_ne_nil (image : Str) : normalizedPathSegments image ≠ [] := by
  rw [normalizedPathSegments]
  exact normalize_docker_hub_snd_ne_nil _ _
    (registrySplit_snd_ne_nil _ (tagSplit_fst_ne_nil _))

theorem pyIndex_eq_none_iff (a : Str) (l : List Str) : pyIndex a l = none ↔ a ∉ l := by
  induction l with
  | nil => simp [pyIndex]
  | cons x xs ih =>
      by_cases hx : x = a
      · subst hx
        simp [pyIndex]
      · rw [pyIndex, if_neg hx, Option.map_eq_none', ih]
        constructor
        · intro hnot hmem
          rcases List.mem_cons.1 hmem with h1 | h1
          · exact hx h1.symm
          · exact hnot h1
        · intro hnot hmem
          exact hnot (List.mem_cons_of_mem _ hmem)

theorem pyIndex_mem (a : Str) (l : List Str) (i : Nat) (h : pyIndex a l = some i) : a ∈ l := by
  by_contra hmem
  rw [(pyIndex_eq_none_iff a l).mpr hmem] at h
  exact Option.noConfusion h

theorem pyIndex_first (a : Str) (pre post : List Str) (h : a ∉ pre) :
    pyIndex a (pre ++ a :: post) = some pre.length := by
  induction pre with
  | nil => simp [pyIndex]
  | cons x xs ih =>
      have hx : ¬x = a := fun hx => h (hx ▸ List.mem_cons_self x xs)
      have hxs : a ∉ xs := fun hm => h (List.mem_cons_of_mem x hm)
      simp [pyIndex, hx, ih hxs]

theorem drop_append_cons (pre post : List Str) (a : Str) :
    (pre ++ a :: post).drop (pre.length + 1) = post := by
  rw [show pre ++ a :: post = (pre ++ [a]) ++ post from by simp]
  rw [show pre.length + 1 = (pre ++ [a]).length from by simp]
  exact List.drop_left _ _

theorem getLastD_mem {α : Type} (l : List α) (d : α) (h : l ≠ []) : l.getLastD d ∈ l := by
  rw [List.getLastD_eq_getLast?]
  rcases hl : l.getLast? with _ | x
  · rw [List.getLast?_eq_none_iff] at hl
    exact absurd hl h
  · simp only [Option.getD_some]
    obtain ⟨hne, hx⟩ :=
      List.mem_getLast?_eq_getLast (l := l) (x := x) (by simp [hl, Option.mem_def])
    rw [hx]
    exact List.getLast_mem hne

theorem anchorResolve_registry (a : Str) (ps : List Str) (v : Str) (r : Option Str)
    (f : Str) : (anchorResolve a ps v r f).registry = r := by
  rw [anchorResolve]
  rcases h : pyIndex a ps with _ | i
  · simp [h]
  · rcases hd : ps.drop (i + 1) with _ | ⟨c, rest⟩ <;> simp [h, hd]

theorem anchorResolve_version (a : Str) (ps : List Str) (v : Str) (r : Option Str)
    (f : Str) : (anchorResolve a ps v r f).version = v := by
  rw [anchorResolve]
  rcases h : pyIndex a ps with _ | i
  · simp [h]
  · rcases hd : ps.drop (i + 1) with _ | ⟨c, rest⟩ <;> simp [h, hd]

theorem anchorResolve_component_indep (a : Str) (ps : List Str) (v v' : Str)
    (r r' : Option Str) (f f' : Str) :
    (anchorResolve a ps v r f).component = (anchorResolve a ps v' r' f').component := by
  rw [anchorResolve, anchorResolve]
  rcases h : pyIndex a ps with _ | i
  · simp [h]
  · rcases hd : ps.drop (i + 1) with _ | ⟨c, rest⟩ <;> simp [h, hd]

theorem anchorResolve_sub_image_indep (a : Str) (ps : List Str) (v v' : Str)
    (r r' : Option Str) (f f' : Str) :
    (anchorResolve a ps v r f).sub_image = (anchorResolve a ps v' r' f').sub_image := by
  rw [anchorResolve, anchorResolve]
  rcases h : pyIndex a ps with _ | i
  · simp [h]
  · rcases hd : ps.drop (i + 1) with _ | ⟨c, rest⟩ <;> simp [h, hd]

theorem parse_image_reference_eq_some (image anchor : Str) (h : pyStrip image ≠ []) :
    parse_image_reference image anchor =
      some (anchorResolve anchor (normalizedPathSegments image) (imageVersion image)
        (imageRegistry image) (pyStrip image)) := by
  rw [parse_image_reference, if_neg h]

/-! ## C5 — anchor resolution -/

/-- C5: for every successful parse, writing the normalized path segments as
`pre ++ anchor :: post` with the first anchor occurrence, the component is
the first segment of `post` and the sub-image the `/`-joined remainder
(absent when `post` has exactly one segment); when `post` is empty the
component is the anchor itself; when the anchor does not occur the component
is the last path segment and the sub-image is absent. -/
theorem parse_image_reference_anchor_cases (image anchor : Str) (ref : ImageReference)
    (h : parse_image_reference image anchor = some ref) :
    (∀ pre post, normalizedPathSegments image = pre ++ anchor :: post → anchor ∉ pre →
      (post = [] → ref.component = anchor ∧ ref.sub_image = none) ∧
      (∀ c rest, post = c :: rest → ref.component = c ∧
        ref.sub_image = (if rest.isEmpty then none
          else some (List.intercalate ['/'] rest)))) ∧
    (anchor ∉ normalizedPathSegments image →
      ref.component = (normalizedPathSegments image).getLastD [] ∧
      ref.sub_image = none) := by
  have hs : pyStrip image ≠ [] := by
    intro hnil
    rw [parse_image_reference, if_pos hnil] at h
    exact Option.noConfusion h
  rw [parse_image_reference_eq_some image anchor hs] at h
  obtain rfl := Option.some.inj h
  constructor
  · intro pre post hdecomp hpre
    have hidx : pyIndex anchor (normalizedPathSegments image) = some pre.length := by
      rw [hdecomp]
      exact pyIndex_first anchor pre post hpre
    have hdrop : (normalizedPathSegments image).drop (pre.length + 1) = post := by
      rw [hdecomp]
      exact drop_append_cons pre post anchor
    constructor
    · rintro rfl
      simp [anchorResolve, hidx, hdrop]
    · rintro c rest rfl
      simp [anchorResolve, hidx, hdrop]
  · intro hnot
    have hidx : pyIndex anchor (normalizedPathSegments image) = none :=
      (pyIndex_eq_none_iff _ _).mpr hnot
    simp [anchorResolve, hidx]

/-- C5 witness: nested anchored image, instantiated at its path-segment
decomposition. -/
theorem parse_image_reference_anchor_cases_witness :
    parse_image_reference
        "registry.example.com/my-org/my-app/portal/internal/server:v8.13.0".data
        "my-app".data =
      some { component := "portal".data,
             full_image := "registry.example.com/my-org/my-app/portal/internal/server:v8.13.0".data,
             version := "v8.13.0".data, sub_image := some "internal/server".data,
             registry := some "registry.example.com".data } ∧
    normalizedPathSegments
        "registry.example.com/my-org/my-app/portal/internal/server:v8.13.0".data =
      ["my-org".data] ++ "my-app".data :: ["portal".data, "internal".data, "server".data] ∧
    ({ component := "portal".data,
       full_image := "registry.example.com/my-org/my-app/portal/internal/server:v8.13.0".data,
       version := "v8.13.0".data, sub_image := some "internal/server".data,
       registry := some "registry.example.com".data } : ImageReference).component =
      "portal".data ∧
    ({ component := "portal".data,
       full_image := "registry.example.com/my-org/my-app/portal/internal/server:v8.13.0".data,
       version := "v8.13.0".data, sub_image := some "internal/server".data,
       registry := some "registry.example.com".data } : ImageReference).sub_image =
      some "internal/server".data := by
  have hp : parse_image_reference
      "registry.example.com/my-org/my-app/portal/internal/server:v8.13.0".data
      "my-app".data =
      some { component := "portal".data,
             full_image := "registry.example.com/my-org/my-app/portal/internal/server:v8.13.0".data,
             version := "v8.13.0".data, sub_image := some "internal/server".data,
             registry := some "registry.example.com".data } := by decide
  have hc := ((parse_image_reference_anchor_cases _ _ _ hp).1
    ["my-org".data] ["portal".data, "internal".data, "server".data]
    (by decide) (by decide)).2 "portal".data ["internal".data, "server".data] rfl
  exact ⟨hp, by decide, hc.1, hc.2.trans (by decide)⟩

/-! ## C8 — component emptiness -/

/-- C8 counterexample: the image `":v1"` parses successfully (it is neither
empty nor whitespace-only), yet the extracted component is the empty
string. -/
theorem parse_component_empty_example :
    (parse_image_reference ":v1".data "my-app".data).map ImageReference.component =
      some [] := by decide

/-- C8 (amended): for every successful parse whose normalized path segments
are all non-empty, the returned component is a non-empty string (an image
with an empty path segment, e.g. `":v1"`, can produce an empty component). -/
theorem parse_component_ne_nil (image anchor : Str) (ref : ImageReference)
    (h : parse_image_reference image anchor = some ref)
    (hseg : ∀ s ∈ normalizedPathSegments image, s ≠ []) :
    ref.component ≠ [] := by
  have hs : pyStrip image ≠ [] := by
    intro hnil
    rw [parse_image_reference, if_pos hnil] at h
    exact Option.noConfusion h
  rw [parse_image_reference_eq_some image anchor hs] at h
  obtain rfl := Option.some.inj h
  rw [anchorResolve]
  rcases hidx : pyIndex anchor (normalizedPathSegments image) with _ | i
  · simp only [hidx]
    exact hseg _ (getLastD_mem _ _ (normalizedPathSegments_ne_nil image))
  · rcases hdrop : (normalizedPathSegments image).drop (i + 1) with _ | ⟨c, rest⟩
    · simp only [hidx, hdrop]
      exact hseg anchor (pyIndex_mem _ _ _ hidx)
    · simp only [hidx, hdrop]
      exact hseg c (List.drop_subset _ _ (hdrop ▸ List.mem_cons_self c rest))

/-- C8 witness: a parse with all path segments non-empty has a non-empty
component. -/
theorem parse_component_ne_nil_witness :
    (parse_image_reference "redis".data "my-app".data).map ImageReference.component ≠
      some [] := by
  have hp : parse_image_reference "redis".data "my-app".data =
      some { component := "redis".data, full_image := "redis".data,
             version := "latest".data, sub_image := none, registry := none } := by decide
  intro hcontra
  rw [hp, Option.map_some'] at hcontra
  exact parse_component_ne_nil _ _ _ hp (by decide) (Option.some.inj hcontra)

/-! ## Append lemmas for the strip / truncate / split pipeline -/

theorem pyLStrip_append (a b : Str) :
    pyLStrip (a ++ b) =
      if (pyLStrip a).isEmpty then pyLStrip b else pyLStrip a ++ b := by
  simp only [pyLStrip]
  exact List.dropWhile_append

theorem pyLStrip_cons_of_not_space (c : Char) (s : Str) (h : pyIsSpace c = false) :
    pyLStrip (c :: s) = c :: s := by
  simp [pyLStrip, List.dropWhile_cons, h]

theorem pyRStrip_append_of_last (a b : Str) (c : Char) (hc : pyIsSpace c = false) :
    pyRStrip ((a ++ [c]) ++ b) = (a ++ [c]) ++ pyRStrip b := by
  simp only [pyRStrip, List.reverse_append, List.reverse_cons, List.reverse_nil,
    List.nil_append]
  rw [List.dropWhile_append]
  by_cases hb : (b.reverse.dropWhile pyIsSpace).isEmpty = true
  · rw [if_pos hb]
    rw [List.isEmpty_iff] at hb
    rw [hb]
    simp [List.dropWhile_cons, hc]
  · rw [if_neg hb]
    simp

theorem pyRStrip_of_last (a : Str) (c : Char) (hc : pyIsSpace c = false) :
    pyRStrip (a ++ [c]) = a ++ [c] := by
  have h := pyRStrip_append_of_last a [] c hc
  simpa using h

theorem takeWhile_append_of_all (p : Char → Bool) (a b : Str) (h : ∀ x ∈ a, p x = true) :
    (a ++ b).takeWhile p = a ++ b.takeWhile p := by
  induction a with
  | nil => simp
  | cons c cs ih =>
      have hc := h c (List.mem_cons_self c cs)
      simp only [List.cons_append, List.takeWhile_cons, hc, if_true]
      rw [ih (fun x hx => h x (List.mem_cons_of_mem c hx))]

theorem takeWhile_eq_self_of_all (p : Char → Bool) (a : Str) (h : ∀ x ∈ a, p x = true) :
    a.takeWhile p = a := by
  have := takeWhile_append_of_all p a [] h
  simpa using this

theorem contains_eq_false_iff (s : Str) (c : Char) :
    s.contains c = false ↔ c ∉ s := by
  constructor
  · intro h hm
    rw [← @List.elem_iff _ _ _ c s] at hm
    rw [List.contains] at h
    rw [h] at hm
    exact Bool.noConfusion hm
  · intro h
    by_contra hne
    rw [Bool.not_eq_false, List.contains, List.elem_iff] at hne
    exact h hne

theorem workingOf_eq_takeWhile (image : Str) :
    workingOf image = (pyStrip image).takeWhile (fun c => !(c = '@')) := by
  rw [workingOf]
  by_cases h : (pyStrip image).contains '@' = true
  · rw [if_pos h]
  · rw [Bool.not_eq_true] at h
    rw [if_neg (by rw [h]; simp)]
    rw [contains_eq_false_iff] at h
    exact (takeWhile_eq_self_of_all _ _ (fun x hx => by
      have hd : (decide (x = '@')) = false := decide_eq_false (fun hxc => h (hxc ▸ hx))
      simp [hd])).symm

theorem pySplit_append_sep (sep : Char) (a b : Str) (h : sep ∉ a) :
    pySplit sep (a ++ sep :: b) = a :: pySplit sep b := by
  induction a with
  | nil =>
      rw [List.nil_append, pySplit]
      rcases hb : pySplit sep b with _ | ⟨h', t⟩
      · exact absurd hb (pySplit_ne_nil sep b)
      · simp
  | cons x xs ih =>
      have hx : ¬x = sep := fun hx => h (hx ▸ List.mem_cons_self x xs)
      have hxs : sep ∉ xs := fun hm => h (List.mem_cons_of_mem x hm)
      rw [List.cons_append, pySplit, ih hxs]
      simp [hx]

theorem headD_append_of_ne_nil {α : Type} (a b : List α) (d : α) (h : a ≠ []) :
    (a ++ b).headD d = a.headD d := by
  rcases a with _ | ⟨x, xs⟩
  · exact absurd rfl h
  · simp

theorem getLastD_concat {α : Type} (a : List α) (x d : α) : (a ++ [x]).getLastD d = x := by
  induction a generalizing d with
  | nil => simp [List.getLastD]
  | cons c cs ih =>
      rw [List.cons_append, List.getLastD_cons]
      exact ih c

theorem pyStrip_append_solid (a b : Str) (h1 : a ≠ [])
    (hhead : pyIsSpace (a.headD ' ') = false) (hlast : pyIsSpace (a.getLastD ' ') = false) :
    pyStrip (a ++ b) = a ++ pyRStrip b := by
  rcases a with _ | ⟨c, cs⟩
  · exact absurd rfl h1
  · have hl : pyLStrip ((c :: cs) ++ b) = (c :: cs) ++ b := by
      rw [List.cons_append]
      exact pyLStrip_cons_of_not_space _ _ (by simpa using hhead)
    rw [pyStrip, hl]
    have hconcat : c :: cs = (c :: cs).dropLast ++ [(c :: cs).getLast (by simp)] :=
      (List.dropLast_append_getLast (by simp)).symm
    have hlast' : pyIsSpace ((c :: cs).getLast (by simp)) = false := by
      have := getLastD_concat ((c :: cs).dropLast) ((c :: cs).getLast (by simp)) ' '
      rw [← hconcat] at this
      rwa [this] at hlast
    calc pyRStrip ((c :: cs) ++ b)
        = pyRStrip (((c :: cs).dropLast ++ [(c :: cs).getLast (by simp)]) ++ b) := by
          rw [← hconcat]
      _ = ((c :: cs).dropLast ++ [(c :: cs).getLast (by simp)]) ++ pyRStrip b :=
          pyRStrip_append_of_last _ _ _ hlast'
      _ = (c :: cs) ++ pyRStrip b := by rw [← hconcat]

/-! ## C7 — Docker Hub normalization -/

theorem tagSplit_cons_head (host w : Str) (h4 : '/' ∉ host) :
    ∃ T, T ≠ [] ∧ (tagSplit (host ++ '/' :: w)).1 = host :: T := by
  rw [tagSplit]
  rw [pySplit_append_sep '/' host w h4]
  rcases hS : pySplit '/' w with _ | ⟨s0, S'⟩
  · exact absurd hS (pySplit_ne_nil _ _)
  · rw [List.getLastD_cons]
    split
    · refine ⟨(s0 :: S').dropLast ++
        [(pyRSplitOnce ':' ((s0 :: S').getLastD host)).1], by simp, ?_⟩
      simp [List.dropLast]
    · exact ⟨s0 :: S', by simp, rfl⟩

theorem registrySplit_cons_host (host : Str) (T : List Str) (hT : T ≠ [])
    (h7 : has_registry_host host = true) :
    registrySplit (host :: T) = (some host, T) := by
  rcases T with _ | ⟨t0, T'⟩
  · exact absurd rfl hT
  · rw [registrySplit, if_pos (by simp [h7])]
    simp

theorem normalize_fst_of_hub (host : Str) (T : List Str)
    (h6 : DOCKER_HUB_HOSTS.contains host = true) :
    (normalize_docker_hub (some host) T).1 = some DOCKER_HUB_CANONICAL := by
  have h6' : host ∈ DOCKER_HUB_HOSTS := by
    rwa [List.contains, List.elem_iff] at h6
  simp [normalize_docker_hub, h6']

theorem parse_hub_registry (host rest anchor : Str) (h1 : host ≠ [])
    (h2 : pyIsSpace (host.headD ' ') = false) (h3 : '@' ∉ host) (h4 : '/' ∉ host)
    (h6 : DOCKER_HUB_HOSTS.contains host = true) (h7 : has_registry_host host = true) :
    (parse_image_reference (host ++ '/' :: rest) anchor).map ImageReference.registry =
      some (some DOCKER_HUB_CANONICAL) := by
  have hstrip : pyStrip (host ++ '/' :: rest) = (host ++ ['/']) ++ pyRStrip rest := by
    rw [show host ++ '/' :: rest = (host ++ ['/']) ++ rest from by simp]
    exact pyStrip_append_solid _ _ (by simp)
      (by rwa [headD_append_of_ne_nil host ['/'] ' ' h1])
      (by rw [getLastD_concat]; decide)
  have hne : pyStrip (host ++ '/' :: rest) ≠ [] := by
    rw [hstrip]
    simp
  have hwork : workingOf (host ++ '/' :: rest) =
      host ++ '/' :: (pyRStrip rest).takeWhile (fun c => !(c = '@')) := by
    rw [workingOf_eq_takeWhile, hstrip]
    rw [takeWhile_append_of_all _ (host ++ ['/']) _ (fun x hx => by
      rcases List.mem_append.1 hx with hm | hm
      · have hxne : (decide (x = '@')) = false :=
          decide_eq_false (fun hxe => h3 (hxe ▸ hm))
        simp [hxne]
      · simp only [List.mem_singleton] at hm
        subst hm
        decide)]
    simp
  obtain ⟨T, hT, htag⟩ :=
    tagSplit_cons_head host ((pyRStrip rest).takeWhile (fun c => !(c = '@'))) h4
  have hfst : imageRegistry (host ++ '/' :: rest) = some DOCKER_HUB_CANONICAL := by
    rw [imageRegistry, hwork, htag, registrySplit_cons_host host T hT h7]
    exact normalize_fst_of_hub host T h6
  rw [parse_image_reference_eq_some _ _ hne, Option.map_some', anchorResolve_registry, hfst]

/-- C7: parsing any image of the form `H/X` with `H` one of the Docker Hub
host aliases yields the canonical registry `docker.io`; and
`_normalize_docker_hub` prepends the `library` segment exactly when the
(normalized) registry is absent or canonical Docker Hub and the path has
exactly one segment. -/
theorem docker_hub_normalization :
    (∀ rest anchor,
      (parse_image_reference ("docker.io".data ++ '/' :: rest) anchor).map
        ImageReference.registry = some (some DOCKER_HUB_CANONICAL)) ∧
    (∀ rest anchor,
      (parse_image_reference ("index.docker.io".data ++ '/' :: rest) anchor).map
        ImageReference.registry = some (some DOCKER_HUB_CANONICAL)) ∧
    (∀ rest anchor,
      (parse_image_reference ("registry-1.docker.io".data ++ '/' :: rest) anchor).map
        ImageReference.registry = some (some DOCKER_HUB_CANONICAL)) ∧
    (∀ registry path_segments,
      (normalize_docker_hub registry path_segments).2 =
        if ((normalize_docker_hub registry path_segments).1 = none ∨
            (normalize_docker_hub registry path_segments).1 = some DOCKER_HUB_CANONICAL) ∧
            path_segments.length = 1
        then "library".data :: path_segments else path_segments) := by
  refine ⟨?_, ?_, ?_, ?_⟩
  · intro rest anchor
    exact parse_hub_registry _ _ _ (by decide) (by decide) (by decide) (by decide)
      (by decide) (by decide)
  · intro rest anchor
    exact parse_hub_registry _ _ _ (by decide) (by decide) (by decide) (by decide)
      (by decide) (by decide)
  · intro rest anchor
    exact parse_hub_registry _ _ _ (by decide) (by decide) (by decide) (by decide)
      (by decide) (by decide)
  · intro registry path_segments
    rcases registry with _ | r
    · by_cases hl : path_segments.length = 1 <;>
        simp [normalize_docker_hub, hl]
    · by_cases hr : DOCKER_HUB_HOSTS.contains r = true
      · by_cases hl : path_segments.length = 1 <;>
          simp [normalize_docker_hub, hr, hl, DOCKER_HUB_CANONICAL]
      · have hrne : r ≠ DOCKER_HUB_CANONICAL := by
          intro he
          subst he
          exact hr (by decide)
        by_cases hl : path_segments.length = 1 <;>
          simp [normalize_docker_hub, hr, hl, hrne]

/-! ## C6 — digest stripping -/

/-- C6 counterexample: with an image that ends in whitespace (allowed by the
claim, which only excludes `'@'`), appending a digest changes the parsed
component, because `strip()` runs before the `@`-truncation. -/
theorem parse_digest_counterexample :
    ('@' ∉ "a ".data) ∧
    (parse_image_reference ("a ".data ++ '@' :: "sha256:abc".data) "z".data).map
        ImageReference.component ≠
      (parse_image_reference "a ".data "z".data).map ImageReference.component := by
  decide

theorem getLastD_eq_getLast {α : Type} (l : List α) (d : α) (h : l ≠ []) :
    l.getLastD d = l.getLast h := by
  rw [List.getLastD_eq_getLast?, List.getLast?_eq_getLast l h, Option.getD_some]

/-- C6 (amended): for every non-empty image that contains no `'@'` and does
not end in a whitespace character, appending any `'@'`-digest suffix leaves
the parsed component, version, sub-image and registry unchanged, and both
parses succeed (each call's `full_image` is its own stripped input). -/
theorem parse_digest_invariance (image digest anchor : Str) (h1 : image ≠ [])
    (h2 : '@' ∉ image) (h3 : pyIsSpace (image.getLastD ' ') = false) :
    (parse_image_reference (image ++ '@' :: digest) anchor).map ImageReference.component =
      (parse_image_reference image anchor).map ImageReference.component ∧
    (parse_image_reference (image ++ '@' :: digest) anchor).map ImageReference.version =
      (parse_image_reference image anchor).map ImageReference.version ∧
    (parse_image_reference (image ++ '@' :: digest) anchor).map ImageReference.sub_image =
      (parse_image_reference image anchor).map ImageReference.sub_image ∧
    (parse_image_reference (image ++ '@' :: digest) anchor).map ImageReference.registry =
      (parse_image_reference image anchor).map ImageReference.registry ∧
    (parse_image_reference image anchor).isSome = true ∧
    (parse_image_reference (image ++ '@' :: digest) anchor).isSome = true := by
  have h3' : pyIsSpace (image.getLast h1) = false := by
    rwa [getLastD_eq_getLast image ' ' h1] at h3
  have hconcat : image = image.dropLast ++ [image.getLast h1] :=
    (List.dropLast_append_getLast h1).symm
  have hlstrip : ∃ a, pyLStrip image = a ++ [image.getLast h1] := by
    rw [show pyLStrip image = pyLStrip (image.dropLast ++ [image.getLast h1]) from by
      rw [← hconcat]]
    rw [pyLStrip_append]
    by_cases he : (pyLStrip image.dropLast).isEmpty = true
    · rw [if_pos he]
      exact ⟨[], pyLStrip_cons_of_not_space _ _ h3'⟩
    · rw [if_neg he]
      exact ⟨pyLStrip image.dropLast, rfl⟩
  obtain ⟨a, ha⟩ := hlstrip
  have hstrip_pl : pyStrip image = pyLStrip image := by
    rw [pyStrip, ha]
    exact pyRStrip_of_last a _ h3'
  have hsne : pyStrip image ≠ [] := by
    rw [hstrip_pl, ha]
    simp
  have hlsub : ∀ x ∈ pyLStrip image, x ∈ image := fun x hx =>
    (List.dropWhile_sublist (p := pyIsSpace) (l := image)).mem hx
  have hstrip2 : pyStrip (image ++ '@' :: digest) =
      (pyLStrip image ++ ['@']) ++ pyRStrip digest := by
    rw [pyStrip, pyLStrip_append, if_neg (by rw [ha]; simp)]
    rw [show pyLStrip image ++ '@' :: digest = (pyLStrip image ++ ['@']) ++ digest from by simp]
    exact pyRStrip_append_of_last _ _ _ (by decide)
  have hs2ne : pyStrip (image ++ '@' :: digest) ≠ [] := by
    rw [hstrip2]
    simp
  have hwork1 : workingOf image = pyLStrip image := by
    rw [workingOf_eq_takeWhile, hstrip_pl]
    exact takeWhile_eq_self_of_all _ _ (fun x hx => by
      have hxne : (decide (x = '@')) = false :=
        decide_eq_false (fun hxe => h2 (hxe ▸ hlsub x hx))
      simp [hxne])
  have hwork2 : workingOf (image ++ '@' :: digest) = pyLStrip image := by
    rw [workingOf_eq_takeWhile, hstrip2]
    rw [show (pyLStrip image ++ ['@']) ++ pyRStrip digest =
      pyLStrip image ++ '@' :: pyRStrip digest from by simp]
    rw [takeWhile_append_of_all _ (pyLStrip image) _ (fun x hx => by
      have hxne : (decide (x = '@')) = false :=
        decide_eq_false (fun hxe => h2 (hxe ▸ hlsub x hx))
      simp [hxne])]
    rw [List.takeWhile_cons]
    simp
  have hworks : workingOf (image ++ '@' :: digest) = workingOf image := by
    rw [hwork1, hwork2]
  have hver : imageVersion (image ++ '@' :: digest) = imageVersion image := by
    rw [imageVersion, imageVersion, hworks]
  have hreg : imageRegistry (image ++ '@' :: digest) = imageRegistry image := by
    rw [imageRegistry, imageRegistry, hworks]
  have hnps : normalizedPathSegments (image ++ '@' :: digest) =
      normalizedPathSegments image := by
    rw [normalizedPathSegments, normalizedPathSegments, hworks]
  rw [parse_image_reference_eq_some _ _ hs2ne, parse_image_reference_eq_some _ _ hsne]
  simp only [Option.map_some', Option.isSome_some]
  rw [hver, hreg, hnps]
  refine ⟨?_, ?_, ?_, ?_, trivial, trivial⟩
  · exact congrArg some (anchorResolve_component_indep _ _ _ _ _ _ _ _)
  · rw [anchorResolve_version, anchorResolve_version]
  · exact congrArg some (anchorResolve_sub_image_indep _ _ _ _ _ _ _ _)
  · rw [anchorResolve_registry, anchorResolve_registry]

/-- C6 witness: concrete digest-stripped parse. -/
theorem parse_digest_invariance_witness :
    (parse_image_reference ("my-app/backend:v1".data ++ '@' :: "sha256:abc".data)
        "my-app".data).map ImageReference.component =
      (parse_image_reference "my-app/backend:v1".data "my-app".data).map
        ImageReference.component ∧
    (parse_image_reference ("my-app/backend:v1".data ++ '@' :: "sha256:abc".data)
        "my-app".data).map ImageReference.version =
      (parse_image_reference "my-app/backend:v1".data "my-app".data).map
        ImageReference.version := by
  have h := parse_digest_invariance "my-app/backend:v1".data "sha256:abc".data
    "my-app".data (by decide) (by decide) (by decide)
  exact ⟨h.1, h.2.1⟩

/-! ## C9 — component-map entry keys are unique per bucket -/

theorem entryKey_eq_iff (e : ComponentMapEntry) (w t cn v : Str) :
    entryKey e = (w, t, cn, v) ↔
      e.workload_name = w ∧ e.workload_type = t ∧ e.container_name = cn ∧
        e.actual_version = v := by
  simp [entryKey, Prod.ext_iff]

theorem entryKey_build_or_update_mem (entries : List ComponentMapEntry)
    (wname wtype : Str) (parsed : ImageReference) (ctype : ContainerType)
    (pi : Option PodInfo) (x : ComponentMapEntry)
    (hx : x ∈ build_or_update_entry entries wname wtype parsed ctype pi) :
    entryKey x ∈ entries.map entryKey ∨
      entryKey x = (wname, wtype, parsed.component, parsed.version) := by
  induction entries with
  | nil =>
      simp only [build_or_update_entry] at hx
      rw [List.mem_singleton] at hx
      subst hx
      right
      rfl
  | cons e rest ih =>
      simp only [build_or_update_entry] at hx
      split at hx
      · rcases List.mem_cons.1 hx with h | h
        · subst h
          left
          exact List.mem_map.2 ⟨e, List.mem_cons_self e rest, rfl⟩
        · left
          exact List.mem_map_of_mem entryKey (List.mem_cons_of_mem e h)
      · rcases List.mem_cons.1 hx with h | h
        · subst h
          left
          exact List.mem_map_of_mem entryKey (List.mem_cons_self x rest)
        · rcases ih h with h' | h'
          · left
            rw [List.map_cons]
            exact List.mem_cons_of_mem _ h'
          · right
            exact h'

theorem build_or_update_entry_pairwise (entries : List ComponentMapEntry)
    (wname wtype : Str) (parsed : ImageReference) (ctype : ContainerType)
    (pi : Option PodInfo)
    (hp : entries.Pairwise (fun a b => entryKey a ≠ entryKey b)) :
    (build_or_update_entry entries wname wtype parsed ctype pi).Pairwise
      (fun a b => entryKey a ≠ entryKey b) := by
  induction entries with
  | nil => simp [build_or_update_entry]
  | cons e rest ih =>
      rw [List.pairwise_cons] at hp
      obtain ⟨he, hrest⟩ := hp
      simp only [build_or_update_entry]
      split
      · rw [List.pairwise_cons]
        exact ⟨fun b hb => he b hb, hrest⟩
      · rename_i hmatch
        rw [List.pairwise_cons]
        constructor
        · intro b hb
          rcases entryKey_build_or_update_mem rest wname wtype parsed ctype pi b hb with
            h' | h'
          · obtain ⟨y, hy, hyk⟩ := List.mem_map.1 h'
            rw [← hyk]
            exact he y hy
          · rw [h']
            intro hEq
            exact hmatch ((entryKey_eq_iff e _ _ _ _).mp hEq)
        · exact ih hrest

theorem processContainer_pairwise (manifest : List (Str × Str))
    (repository_anchor : Str) (skip_patterns : List Str) (wname wtype : Str)
    (m : ComponentMap) (triple : Str × ContainerType × Option PodInfo)
    (hm : ∀ c, (m c).Pairwise (fun a b => entryKey a ≠ entryKey b)) :
    ∀ c, ((processContainer manifest repository_anchor skip_patterns wname wtype m
      triple) c).Pairwise (fun a b => entryKey a ≠ entryKey b) := by
  intro c
  rcases hp : parse_image_reference triple.1 repository_anchor with _ | parsed
  · simp only [processContainer, hp]
    exact hm c
  · simp only [processContainer, hp]
    split
    · exact hm c
    · split
      · exact hm c
      · rw [Function.update_apply]
        split
        · exact build_or_update_entry_pairwise _ _ _ _ _ _ (hm _)
        · exact hm c

theorem foldl_preserve_map {α : Type} (P : ComponentMap → Prop)
    (f : ComponentMap → α → ComponentMap) (hf : ∀ m x, P m → P (f m x)) :
    ∀ (l : List α) (m : ComponentMap), P m → P (l.foldl f m) := by
  intro l
  induction l with
  | nil => exact fun m hm => hm
  | cons x xs ih => exact fun m hm => ih _ (hf m x hm)

/-- C9: in the map built by `construct_component_map`, the grouping tuples
`(workload_name, workload_type, container_name, actual_version)` are pairwise
distinct within each component bucket; and a container whose tuple matches an
existing entry leaves the bucket's keys (and its length) unchanged — it only
appends its pod info rather than creating a new entry. -/
theorem construct_component_map_keys_distinct :
    (∀ workloads manifest repository_anchor skip_containers c,
      ((construct_component_map workloads manifest repository_anchor skip_containers) c).Pairwise
        (fun a b => entryKey a ≠ entryKey b)) ∧
    (∀ entries wname wtype parsed ctype pi,
      (∃ e ∈ entries, entryKey e = (wname, wtype, parsed.component, parsed.version)) →
      (build_or_update_entry entries wname wtype parsed ctype pi).map entryKey =
        entries.map entryKey ∧
      (build_or_update_entry entries wname wtype parsed ctype pi).length =
        entries.length) := by
  constructor
  · intro workloads manifest repository_anchor skip_containers c
    rw [construct_component_map]
    refine foldl_preserve_map
      (fun m => ∀ c, (m c).Pairwise (fun a b => entryKey a ≠ entryKey b)) _
      ?_ workloads _ (fun c => by simp) c
    intro m w hmm
    exact foldl_preserve_map _ _
      (fun m' t hm' => processContainer_pairwise _ _ _ _ _ m' t hm') _ m hmm
  · intro entries wname wtype parsed ctype pi hex
    induction entries with
    | nil => simp at hex
    | cons e rest ih =>
        simp only [build_or_update_entry]
        split
        · exact ⟨rfl, rfl⟩
        · rename_i hmatch
          obtain ⟨e0, he0, hkey⟩ := hex
          rcases List.mem_cons.1 he0 with h | h
          · subst h
            rw [entryKey_eq_iff] at hkey
            exact absurd hkey hmatch
          · obtain ⟨hmap, hlen⟩ := ih ⟨e0, h, hkey⟩
            constructor
            · rw [List.map_cons, List.map_cons, hmap]
            · simp [hlen]

/-- C9 witness: a container matching an existing entry's tuple leaves the
bucket's keys and length unchanged. -/
theorem construct_component_map_keys_distinct_witness :
    (build_or_update_entry
        [{ workload_name := "w".data, workload_type := "Deployment".data,
           container_name := "backend".data, container_type := ContainerType.app,
           actual_version := "v1".data, pods := [] }]
        "w".data "Deployment".data
        { component := "backend".data, full_image := "img".data, version := "v1".data }
        ContainerType.app none).map entryKey =
      [{ workload_name := "w".data, workload_type := "Deployment".data,
         container_name := "backend".data, container_type := ContainerType.app,
         actual_version := "v1".data, pods := [] }].map entryKey := by
  exact (construct_component_map_keys_distinct.2 _ _ _ _ _ _
    ⟨_, List.mem_singleton_self _, by decide⟩).1

/-! ## C1 — alias resolution in the component mapper (spec-modelled) -/

/-- C1: in the alias-aware mapper, the parsed component is resolved through
the reverse-alias table before the manifest-membership test: a container
whose parsed component aliases to a manifest key is recorded under that
manifest key; concretely, with manifest `{"foo": "v1.0.0"}`, reverse alias
`bar-baz -> foo`, and image `.../my-app/bar-baz:v1.0.0`, an entry is created
under `"foo"`. -/
theorem construct_component_map_aliased_resolution :
    (∀ manifest repository_anchor skip_patterns reverse_aliases wname wtype
        (m : ComponentMap) image ctype pi parsed,
      parse_image_reference image repository_anchor = some parsed →
      manifestHasKey manifest
        ((reverse_aliases.lookup parsed.component).getD parsed.component) = true →
      should_skip skip_patterns parsed.component wname = none →
      processContainerAliased manifest repository_anchor skip_patterns reverse_aliases
          wname wtype m (image, ctype, pi) =
        Function.update m
          ((reverse_aliases.lookup parsed.component).getD parsed.component)
          (build_or_update_entry
            (m ((reverse_aliases.lookup parsed.component).getD parsed.component))
            wname wtype parsed ctype pi)) ∧
    construct_component_map_aliased
        [{ name := "foo-deployment".data, type := "Deployment".data,
           namespace_ := "default".data,
           pod_spec := some { node_name := "n".data,
                              containers :=
                                [{ image := "registry.example.com/my-org/my-app/bar-baz:v1.0.0".data }] } }]
        [("foo".data, "v1.0.0".data)] "my-app".data []
        [("bar-baz".data, "foo".data)] "foo".data =
      [{ workload_name := "foo-deployment".data, workload_type := "Deployment".data,
         container_name := "bar-baz".data, container_type := ContainerType.app,
         actual_version := "v1.0.0".data, pods := [] }] := by
  constructor
  · intro manifest repository_anchor skip_patterns reverse_aliases wname wtype m
      image ctype pi parsed hparse hmani hskip
    simp [processContainerAliased, hparse, hmani, hskip]
  · decide

/-- C1 witness: the alias step at the concrete example inputs. -/
theorem construct_component_map_aliased_resolution_witness :
    processContainerAliased [("foo".data, "v1.0.0".data)] "my-app".data []
        [("bar-baz".data, "foo".data)] "foo-deployment".data "Deployment".data
        (fun _ => [])
        ("registry.example.com/my-org/my-app/bar-baz:v1.0.0".data, ContainerType.app, none) =
      Function.update (fun _ => []) "foo".data
        (build_or_update_entry [] "foo-deployment".data "Deployment".data
          { component := "bar-baz".data,
            full_image := "registry.example.com/my-org/my-app/bar-baz:v1.0.0".data,
            version := "v1.0.0".data, sub_image := none,
            registry := some "registry.example.com".data }
          ContainerType.app none) := by
  have h := construct_component_map_aliased_resolution.1
    [("foo".data, "v1.0.0".data)] "my-app".data [] [("bar-baz".data, "foo".data)]
    "foo-deployment".data "Deployment".data (fun _ => [])
    "registry.example.com/my-org/my-app/bar-baz:v1.0.0".data ContainerType.app none
    { component := "bar-baz".data,
      full_image := "registry.example.com/my-org/my-app/bar-baz:v1.0.0".data,
      version := "v1.0.0".data, sub_image := none,
      registry := some "registry.example.com".data }
    (by decide) (by decide) (by decide)
  exact h

/-! ## Concrete sanity checks of the parser embedding -/

example :
    parse_image_reference "registry.example.com/my-org/my-app/backend:1.2.3".data "my-app".data =
      some { component := "backend".data, full_image := "registry.example.com/my-org/my-app/backend:1.2.3".data,
             version := "1.2.3".data, sub_image := none, registry := some "registry.example.com".data } := by
  decide

example :
    parse_image_reference "registry.example.com/my-org/my-app/portal/internal/server:v8.13.0".data "my-app".data =
      some { component := "portal".data,
             full_image := "registry.example.com/my-org/my-app/portal/internal/server:v8.13.0".data,
             version := "v8.13.0".data, sub_image := some "internal/server".data,
             registry := some "registry.example.com".data } := by
  decide

example :
    (parse_image_reference "redis".data "my-app".data).map ImageReference.component =
      some "redis".data := by decide

example :
    (parse_image_reference "index.docker.io/nginx:1.21".data "my-app".data).map ImageReference.registry =
      some (some "docker.io".data) := by decide

example : parse_image_reference "   ".data "my-app".data = none := by decide

end Kubernify
